import Mathlib

/-!
Verification development for the Minecraft server monitor
(`src/MinecraftServerMonitor.py`).

The Python program keeps two SQLite tables,

  servers (id INTEGER PRIMARY KEY AUTOINCREMENT, name TEXT UNIQUE, ip TEXT UNIQUE)
  stats   (id INTEGER PRIMARY KEY AUTOINCREMENT, server_id INTEGER,
           online INTEGER, timestamp DATETIME DEFAULT CURRENT_TIMESTAMP,
           FOREIGN KEY(server_id) REFERENCES servers(id) ON DELETE CASCADE)

and a single cooperative scheduler loop.  This file embeds the store, the
statistics (report aggregation, anomaly detection), the command handling and
the scheduler tick as pure Lean functions, and proves the specification
claims about them.

Modelling conventions:
* timestamps are natural numbers (seconds); `timestamp > datetime('now', '-N days')`
  becomes a comparison against an integer cutoff `now - N*86400`;
* SQLite `AUTOINCREMENT` is modelled by a `nextId` counter starting at 1;
* the Python program opens its sqlite3 connection without ever issuing
  `PRAGMA foreign_keys = ON`; SQLite enforces foreign-key clauses (including
  `ON DELETE CASCADE`) only when that pragma is enabled on the connection,
  so deleting a row of `servers` leaves the matching `stats` rows in place.
  The embedding reproduces this actual behaviour;
* the external status provider (`JavaServer.lookup(...).status()`) is an
  opaque function `String → Option ℕ`: `some c` is a successful query that
  reported `c` players online, `none` is any exception (timeout etc.).
-/

namespace MCSM

/-- Row of the `servers` table: `(id, name, ip)` with `name` and `ip` unique. -/
structure ServerRow where
  id : ℕ
  name : String
  ip : String
deriving DecidableEq, Repr

/-- Row of the `stats` table.  `server_id` is nullable in SQLite (there is no
NOT NULL constraint), hence an `Option`.  The surrogate `stats.id` column is
never read by any query of the program and is omitted. -/
structure StatRow where
  server_id : Option ℕ
  online : ℕ
  ts : ℕ
deriving DecidableEq, Repr

/-- The database state: both tables plus the next `AUTOINCREMENT` id for
`servers` (SQLite starts at 1). -/
structure Store where
  servers : List ServerRow
  stats : List StatRow
  nextId : ℕ
deriving DecidableEq, Repr

/-- Embeds `load_servers` (line 94): `SELECT name, ip FROM servers`, returned
in rowid (insertion) order. -/
def load_servers (st : Store) : List (String × String) :=
  st.servers.map (fun r => (r.name, r.ip))

/-- Embeds `_get_server_id` (line 98): `SELECT id FROM servers WHERE name = ?`
and `fetchone()`. -/
def get_server_id (st : Store) (name : String) : Option ℕ :=
  (st.servers.find? (fun r => r.name = name)).map (fun r => r.id)

/-- Server names currently registered, in listing order. -/
def validNames (st : Store) : List String :=
  (load_servers st).map Prod.fst

/-- Outcome printed by `add_server` (lines 228-239). -/
inductive AddOutcome where
  | ok
  | duplicate
  | unreachable
deriving DecidableEq, Repr

/-- Embeds `add_server` (lines 228-239).  The reachability probe
`JavaServer.lookup(ip, timeout=2).status()` runs first (`statusOk` is its
outcome); only if it succeeds is `INSERT INTO servers (name, ip)` attempted,
which raises `sqlite3.IntegrityError` exactly when the UNIQUE constraint on
`name` or on `ip` is violated. -/
def add_server (st : Store) (statusOk : Bool) (name ip : String) : Store × AddOutcome :=
  if statusOk = false then (st, .unreachable)
  else if st.servers.any (fun r => r.name = name ∨ r.ip = ip) then (st, .duplicate)
  else ({ st with
            servers := st.servers ++ [⟨st.nextId, name, ip⟩],
            nextId := st.nextId + 1 },
        .ok)

/-- Embeds `remove_server` (lines 241-243): `DELETE FROM servers WHERE name = ?`.
Returns the new store and the cursor's `rowcount`; the function prints the
success message iff `rowcount > 0`, the not-found message otherwise.
Because the connection never enables `PRAGMA foreign_keys`, the declared
`ON DELETE CASCADE` is not enforced and `stats` is untouched. -/
def remove_server (st : Store) (name : String) : Store × ℕ :=
  let kept := st.servers.filter (fun r => r.name ≠ name)
  ({ st with servers := kept }, st.servers.length - kept.length)

/-- Outcome printed by `delete_server_data` (lines 245-252). -/
inductive DelOutcome where
  | notFound
  | deleted (n : ℕ)
deriving DecidableEq, Repr

/-- True iff the outcome is a deletion count. -/
def DelOutcome.isCount : DelOutcome → Bool
  | .deleted _ => true
  | .notFound => false

/-- Embeds `delete_server_data` (lines 245-252): looks up the id, prints the
not-found error when the lookup fails, otherwise `DELETE FROM stats WHERE
server_id = ?` and prints the count.  The Python guard is `if not server_id`,
which also treats an id equal to `0` as not found (truthiness); SQLite
AUTOINCREMENT ids start at 1, so that case never arises in practice. -/
def delete_server_data (st : Store) (name : String) : Store × DelOutcome :=
  match get_server_id st name with
  | none => (st, .notFound)
  | some sid =>
    if sid = 0 then (st, .notFound)
    else
      let kept := st.stats.filter (fun r => r.server_id ≠ some sid)
      ({ st with stats := kept }, .deleted (st.stats.length - kept.length))

/-- Rows of `stats JOIN servers ON servers.id = stats.server_id WHERE
servers.name = ?`, in table order. -/
def joinRows (st : Store) (name : String) : List StatRow :=
  st.stats.filter
    (fun r => st.servers.any (fun s => some s.id = r.server_id ∧ s.name = name))

/-- Same join further restricted by `timestamp > datetime('now', '-N days')`,
with the cutoff passed as an integer number of seconds. -/
def windowRows (st : Store) (name : String) (cutoff : ℤ) : List StatRow :=
  (joinRows st name).filter (fun r => cutoff < (r.ts : ℤ))

/-- Stable insertion into a timestamp-sorted list (ascending). -/
def insertByTs (r : StatRow) : List StatRow → List StatRow
  | [] => [r]
  | x :: xs => if r.ts < x.ts then r :: x :: xs else x :: insertByTs r xs

/-- Stable sort by timestamp, modelling `ORDER BY timestamp`. -/
def sortByTs : List StatRow → List StatRow
  | [] => []
  | x :: xs => insertByTs x (sortByTs xs)

/-! ## Anomaly detection (`detect_anomalies`, lines 146-175)

For one server the query is `SELECT online FROM stats JOIN servers ...
WHERE servers.name = ? ORDER BY timestamp DESC LIMIT 6`; the resulting
counts, newest first, are fed to the threshold logic below.

The Python code computes `avg = mean(data[1:])` and
`std = stdev(data[1:]) if len(data) > 2 else 0`; under the
`len(data) >= 3` guard the `else 0` arm is unreachable and `stdev` (the
sample standard deviation, denominator `n - 1`) is always applied to at
least two points.  `mean` and the sample variance are exact rationals for
integer inputs; `std` is the real square root of the variance.  To keep the
detector executable we compare against `std` through its square: for
`v ≥ 0`, `2 * Real.sqrt v < a` holds iff `0 < a ∧ 4 * v < a ^ 2`
(theorem `two_sqrt_lt_iff` below), and `std == 0` iff the variance is `0`.
-/

/-- Exact mean of a list of counts, as in `statistics.mean`. -/
def qmean (l : List ℕ) : ℚ :=
  (l.sum : ℚ) / (l.length : ℚ)

/-- Exact sample variance (denominator `n - 1`), the square of
`statistics.stdev`. -/
def qvar (l : List ℕ) : ℚ :=
  (l.map (fun x => ((x : ℚ) - qmean l) ^ 2)).sum / ((l.length : ℚ) - 1)

/-- Anomaly flag printed by `detect_anomalies`. -/
inductive Flag where
  | spike
  | drop
deriving DecidableEq, Repr

/-- Embeds the threshold logic of `detect_anomalies` (lines 159-175) on the
recent-counts list `data` (newest first, at most 6 entries).  With fewer
than 3 entries the server is skipped.  Otherwise, writing `avg` and `std`
for mean and sample standard deviation of `data[1:]`:

* `std == 0` branch: `threshold = avg * 1.5`;
* otherwise: `threshold = avg + 2*std`;
* `if current > threshold:` print the spike alert,
  `elif current < (avg - 2*std):` print the drop alert.

Comparisons against `std = sqrt(variance)` are encoded by the equivalent
squared comparisons (see `two_sqrt_lt_iff`), keeping the function
computable. -/
def detectFlag (data : List ℕ) : Option Flag :=
  match data with
  | [] => none
  | current :: baseline =>
    if data.length < 3 then none
    else
      let avg := qmean baseline
      let v := qvar baseline
      if v = 0 then
        if avg * 1.5 < (current : ℚ) then some .spike
        else if (current : ℚ) < avg then some .drop
        else none
      else
        if 0 < (current : ℚ) - avg ∧ 4 * v < ((current : ℚ) - avg) ^ 2 then some .spike
        else if 0 < avg - (current : ℚ) ∧ 4 * v < (avg - (current : ℚ)) ^ 2 then some .drop
        else none

/-- The up-to-6 most recent counts of one server, newest first:
`ORDER BY timestamp DESC LIMIT 6` on the join. -/
def recentCounts (st : Store) (name : String) : List ℕ :=
  (((sortByTs (joinRows st name)).reverse.take 6).map (fun r => r.online))

/-- Embeds `detect_anomalies` (lines 146-175) over the whole store: every
registered server is checked and the fired alerts are collected. -/
def detect_anomalies (st : Store) : List (String × Flag) :=
  (load_servers st).filterMap
    (fun s => (detectFlag (recentCounts st s.1)).map (fun f => (s.1, f)))

/-! ## Report aggregation (`generate_report`, lines 123-144)

Per server the query computes `MAX(online)`, `AVG(online)` and
`COUNT(DISTINCT strftime('%Y-%m-%d', timestamp))` over the window.  SQL
aggregates over an empty row set yield NULL (`Option.none` here).  The
display layer then prints

    peak:    `data[0] or 'N/A'`
    average: `round(data[1], 1) if data[1] else 'N/A'`

so a peak or average that is NULL *or zero* is printed as `N/A` (Python
truthiness). -/

/-- SQL `MAX(online)` over a list of rows: NULL on the empty set. -/
def sqlMax (rows : List StatRow) : Option ℕ :=
  if rows = [] then none
  else some ((rows.map (fun r => r.online)).foldr max 0)

/-- SQL `AVG(online)` over a list of rows: NULL on the empty set. -/
def sqlAvg (rows : List StatRow) : Option ℚ :=
  if rows = [] then none
  else
    let s : ℕ := (rows.map (fun r => r.online)).sum
    some ((s : ℚ) / (rows.length : ℚ))

/-- Calendar day of a timestamp, modelling `strftime('%Y-%m-%d', timestamp)`. -/
def dayOf (ts : ℕ) : ℕ :=
  ts / 86400

/-- SQL `COUNT(DISTINCT strftime('%Y-%m-%d', timestamp))`. -/
def sqlDays (rows : List StatRow) : ℕ :=
  ((rows.map (fun r => dayOf r.ts)).dedup).length

/-- Python `round(x, 1)` on an exact rational: round half to even at one
decimal place. -/
def pyRound1 (q : ℚ) : ℚ :=
  let x := q * 10
  let f : ℤ := Int.floor x
  if x - f < 1 / 2 then (f : ℚ) / 10
  else if 1 / 2 < x - f then ((f : ℚ) + 1) / 10
  else if f % 2 = 0 then (f : ℚ) / 10 else ((f : ℚ) + 1) / 10

/-- One displayed report line for a server (lines 129-144): displayed peak
(`none` prints `N/A`), displayed average, and the day count.  The `or`/`if`
truthiness of the Python display code maps both NULL and `0` to `N/A`. -/
def reportRow (st : Store) (name : String) (cutoff : ℤ) : Option ℕ × Option ℚ × ℕ :=
  let rows := windowRows st name cutoff
  let peakDisp : Option ℕ :=
    match sqlMax rows with
    | none => none
    | some p => if p = 0 then none else some p
  let avgDisp : Option ℚ :=
    match sqlAvg rows with
    | none => none
    | some a => if a = 0 then none else some (pyRound1 a)
  (peakDisp, avgDisp, sqlDays rows)

/-- Embeds `generate_report` (lines 123-144): one displayed line per
registered server, window `days` days back from `nowT`. -/
def generate_report (st : Store) (nowT : ℕ) (days : ℤ) : List (String × (Option ℕ × Option ℚ × ℕ)) :=
  (load_servers st).map (fun s => (s.1, reportRow st s.1 ((nowT : ℤ) - days * 86400)))

/-! ## Data collection (`collect_data`, lines 103-121)

The poll round iterates over `load_servers()`; per server it calls the
status provider (modelled as `f : ip → Option count`), and on success runs
`INSERT INTO stats (server_id, online) VALUES (?, ?)` with the id looked up
by name; the `timestamp` column takes its DEFAULT, the time of the round.
Any exception is caught per server: the failure is printed and the loop
continues with the next server. -/

/-- One iteration of the `for server in servers` loop of `collect_data`. -/
def collectStep (f : String → Option ℕ) (t : ℕ) (acc : Store × List String)
    (srv : String × String) : Store × List String :=
  match f srv.2 with
  | some cnt =>
    ({ acc.1 with stats := acc.1.stats ++ [⟨get_server_id acc.1 srv.1, cnt, t⟩] }, acc.2)
  | none => (acc.1, acc.2 ++ [srv.1])

/-- Embeds `collect_data` (lines 103-121): the updated store and the list of
servers whose poll failed and was reported, in polling order. -/
def collect_data (st : Store) (f : String → Option ℕ) (t : ℕ) : Store × List String :=
  (load_servers st).foldl (collectStep f t) (st, [])

/-! ## Trend plotting (`_handle_trend` lines 422-437, `plot_trend` lines 186-226) -/

/-- Digits-only decimal value of a character list. -/
def parseDigits (cs : List Char) : Option ℕ :=
  if cs = [] ∨ ¬ cs.all Char.isDigit then none
  else some (cs.foldl (fun acc c => acc * 10 + (c.toNat - 48)) 0)

/-- Models Python `int(s)` on an optional-sign decimal token (`none` is the
`ValueError` path). -/
def parseInt (s : String) : Option ℤ :=
  match s.data with
  | '-' :: rest => (parseDigits rest).map (fun n => -(n : ℤ))
  | '+' :: rest => (parseDigits rest).map (fun n => (n : ℤ))
  | cs => (parseDigits cs).map (fun n => (n : ℤ))

/-- Result of a `trend` command.  `usage` and `badDays` are the printed
argument errors, `unknown` is the rejection naming the unknown servers, and
`rendered` is the saved figure: its identifier (window length and requested
names determine the file name `trend_{days}d_{names}.png`) together with the
plotted series. -/
inductive TrendOutcome where
  | usage
  | badDays
  | unknown (names : List String)
  | rendered (days : ℤ) (names : List String) (series : List (String × List (ℕ × ℕ)))
deriving DecidableEq, Repr

/-- True iff an artifact (the png file) was produced. -/
def TrendOutcome.producesArtifact : TrendOutcome → Bool
  | .rendered _ _ _ => true
  | _ => false

/-- Embeds `plot_trend` (lines 186-226): for each requested name the window's
samples ordered by timestamp; a name with no rows is skipped with a message
(it contributes no series); the figure is saved unconditionally. -/
def plot_trend (st : Store) (nowT : ℕ) (names : List String) (days : ℤ) : TrendOutcome :=
  .rendered days names
    (names.filterMap (fun n =>
      let rows := sortByTs (windowRows st n ((nowT : ℤ) - days * 86400))
      if rows = [] then none
      else some (n, rows.map (fun r => (r.ts, r.online)))))

/-- Embeds `_handle_trend` (lines 422-437) on the already-tokenized command:
fewer than 3 tokens prints usage; a non-integer day count prints the
`ValueError` message; then all requested names are validated against
`load_servers()` and the whole command is rejected (naming the unknown
servers) if any is unknown; only otherwise is `plot_trend` called.  The
handler never writes to the store. -/
def handle_trend (st : Store) (nowT : ℕ) (parts : List String) : Store × TrendOutcome :=
  match parts with
  | _ :: dTok :: n1 :: rest =>
    (st,
      match parseInt dTok with
      | none => .badDays
      | some d =>
        let names := n1 :: rest
        let invalid := names.filter (fun n => decide (n ∉ validNames st))
        if invalid = [] then plot_trend st nowT names d
        else .unknown invalid)
  | _ => (st, .usage)

/-! ## Interactive input (`WindowsInput._input_loop`, lines 62-79)

On Enter the typed buffer is submitted as `''.join(buffer).strip().lower()`
and enqueued only if non-empty.  Core `String.trim`/`String.toLower` are
byte-position based and do not reduce well, so the same functions are
defined here over the character list. -/

/-- Python `str.lower` (ASCII range), character by character. -/
def lowerStr (s : String) : String :=
  ⟨s.data.map Char.toLower⟩

/-- Python `str.strip`: drop leading and trailing whitespace. -/
def pyStrip (s : String) : String :=
  ⟨((s.data.dropWhile Char.isWhitespace).reverse.dropWhile Char.isWhitespace).reverse⟩

/-- Embeds the Enter handling of `_input_loop` (lines 66-71): the command
enqueued for a typed line, or `none` when the stripped line is empty. -/
def inputLine (raw : String) : Option String :=
  let cmd := lowerStr (pyStrip raw)
  if cmd = "" then none else some cmd

/-- Helper of `tokens`: split on whitespace, accumulating the current word
reversed. -/
def wordsAux : List Char → List Char → List (List Char)
  | [], acc => if acc = [] then [] else [acc.reverse]
  | c :: cs, acc =>
    if c.isWhitespace then
      (if acc = [] then wordsAux cs [] else acc.reverse :: wordsAux cs [])
    else wordsAux cs (c :: acc)

/-- Python `str.split()` with no argument: whitespace-separated words,
empties discarded. -/
def tokens (s : String) : List String :=
  (wordsAux s.data []).map (fun l => ⟨l⟩)

/-- Bool version of `p` being a prefix of `s` (Python `str.startswith`). -/
def strStartsWith (s p : String) : Bool :=
  p.data.isPrefixOf s.data

/-! ## Scheduler state and command dispatch (`run` lines 288-345,
`_process_input` lines 347-357, `_execute_command` lines 359-381) -/

/-- Local wall-clock time of a tick: `time.time()` seconds plus the
`datetime.now()` fields the loop reads (calendar day, hour, minute). -/
structure Now where
  t : ℕ
  day : ℕ
  hour : ℕ
  minute : ℕ
deriving DecidableEq, Repr

/-- The `CONFIG` dictionary fields the scheduler reads: `interval` (300) and
`never_delete_data`. -/
structure Config where
  interval : ℕ
  neverDelete : Bool
deriving DecidableEq, Repr

/-- External inputs of one tick: the clock reading, the status provider's
behaviour, and the commands pending in the input queue. -/
structure TickEnv where
  now : Now
  statusOf : String → Option ℕ
  cmds : List String

/-- Observable actions of the loop, in execution order. -/
inductive Ev where
  | collected (failures : List String)
  | reported (day : ℕ) (days : ℤ) (lines : List (String × (Option ℕ × Option ℚ × ℕ)))
  | cleaned (n : ℕ)
  | cleanSkipped
  | anomaly (flags : List (String × Flag))
  | trended (t : TrendOutcome)
deriving DecidableEq, Repr

/-- Loop state: the store, the `self.running` flag, and the loop-local
variables `last_collect`, `last_report` (assigned on lines 312 and 329 but
never read — kept to mirror the source) and `last_clean`; `events` records
the executed actions. -/
structure MState where
  store : Store
  running : Bool
  lastCollect : ℕ
  lastReport : Now
  lastCleanDay : ℕ
  events : List Ev
deriving Repr

/-- Runs `generate_report(days)` at time `now`, appending the report event. -/
def runReport (m : MState) (now : Now) (days : ℤ) : MState :=
  { m with events := m.events ++ [.reported now.day days (generate_report m.store now.t days)] }

/-- Embeds `_handle_add` (lines 392-398). -/
def handle_add (env : TickEnv) (m : MState) (cmd : String) : MState :=
  match tokens cmd with
  | [_, name, ip] =>
    { m with store := (add_server m.store ((env.statusOf ip).isSome) name ip).1 }
  | _ => m

/-- Embeds `_handle_remove` (lines 400-405). -/
def handle_remove (m : MState) (cmd : String) : MState :=
  match tokens cmd with
  | [_, name] => { m with store := (remove_server m.store name).1 }
  | _ => m

/-- Embeds `_handle_delete` (lines 407-412). -/
def handle_delete (m : MState) (cmd : String) : MState :=
  match tokens cmd with
  | [_, name] => { m with store := (delete_server_data m.store name).1 }
  | _ => m

/-- Embeds `_handle_report` (lines 414-420): `days = int(parts[1]) if
len(parts) > 1 else 1`, with the `ValueError` branch reporting nothing. -/
def handle_report (m : MState) (now : Now) (cmd : String) : MState :=
  match tokens cmd with
  | _ :: dTok :: _ =>
    match parseInt dTok with
    | some d => runReport m now d
    | none => m
  | _ => runReport m now 1

/-- Embeds the `trend` command path (line 377): tokenize and delegate to
`_handle_trend`, recording the outcome. -/
def handle_trend_cmd (m : MState) (now : Now) (cmd : String) : MState :=
  let res := handle_trend m.store now.t (tokens cmd)
  { m with store := res.1, events := m.events ++ [.trended res.2] }

/-- Embeds `_execute_command` (lines 359-381).  `exit` only clears
`self.running`; `help`, `now`, `list` and `config` only print; the
remaining commands are dispatched by `str.startswith` in source order. -/
def executeCommand (env : TickEnv) (m : MState) (cmd : String) : MState :=
  if cmd = "exit" then { m with running := false }
  else if cmd = "help" then m
  else if cmd = "now" then m
  else if cmd = "list" then m
  else if strStartsWith cmd "add" then handle_add env m cmd
  else if strStartsWith cmd "remove" then handle_remove m cmd
  else if strStartsWith cmd "delete" then handle_delete m cmd
  else if strStartsWith cmd "report" then handle_report m env.now cmd
  else if strStartsWith cmd "trend" then handle_trend_cmd m env.now cmd
  else if cmd = "config" then m
  else m

/-- Embeds `_process_input` (lines 347-357): drain the queue until it is
empty (`if not cmd: break` also stops at an empty string, which the
producer never enqueues).  The drain does not consult `self.running`. -/
def processInput (env : TickEnv) (m : MState) : List String → MState
  | [] => m
  | c :: cs => if c = "" then m else processInput env (executeCommand env m c) cs

/-- Poll step of the tick (lines 321-323): fires when
`time.time() - last_collect >= CONFIG['interval']`. -/
def collectPhase (cfg : Config) (env : TickEnv) (m : MState) : MState :=
  if cfg.interval ≤ env.now.t - m.lastCollect then
    let res := collect_data m.store env.statusOf env.now.t
    { m with store := res.1, lastCollect := env.now.t,
             events := m.events ++ [.collected res.2] }
  else m

/-- Daily-report step of the tick (lines 326-329): fires whenever
`now.hour == 8 and now.minute < 5`; `last_report` is assigned but never
consulted, so nothing prevents repeated fires within the window. -/
def reportPhase (env : TickEnv) (m : MState) : MState :=
  if env.now.hour = 8 ∧ env.now.minute < 5 then
    { runReport m env.now 1 with lastReport := env.now }
  else m

/-- Embeds `clean_old_data` (lines 177-184): no-op under `never_delete_data`,
otherwise `DELETE FROM stats WHERE timestamp < datetime('now', '-30 days')`. -/
def clean_old_data (cfg : Config) (st : Store) (nowT : ℕ) : Store × Option ℕ :=
  if cfg.neverDelete then (st, none)
  else
    let kept := st.stats.filter (fun r => decide (¬ (r.ts : ℤ) < (nowT : ℤ) - 30 * 86400))
    ({ st with stats := kept }, some (st.stats.length - kept.length))

/-- Weekly-cleanup step of the tick (lines 332-334): fires when
`(now - last_clean).days >= 7`; `last_clean` is updated afterwards in both
branches. -/
def cleanPhase (cfg : Config) (env : TickEnv) (m : MState) : MState :=
  if 7 ≤ env.now.day - m.lastCleanDay then
    match clean_old_data cfg m.store env.now.t with
    | (_, none) => { m with events := m.events ++ [.cleanSkipped], lastCleanDay := env.now.day }
    | (st', some n) =>
      { m with store := st', events := m.events ++ [.cleaned n], lastCleanDay := env.now.day }
  else m

/-- Hourly anomaly step of the tick (lines 337-338): fires on every tick
whose minute is 0. -/
def anomalyPhase (env : TickEnv) (m : MState) : MState :=
  if env.now.minute = 0 then
    { m with events := m.events ++ [.anomaly (detect_anomalies m.store)] }
  else m

/-- The scheduled part of one tick, in source order (lines 321-338). -/
def applyScheduled (cfg : Config) (env : TickEnv) (m : MState) : MState :=
  anomalyPhase env (cleanPhase cfg env (reportPhase env (collectPhase cfg env m)))

/-- One full tick of the main loop body (lines 316-340): drain and execute
the pending commands, then evaluate each scheduled condition. -/
def tick (cfg : Config) (env : TickEnv) (m : MState) : MState :=
  applyScheduled cfg env (processInput env m env.cmds)

/-- The `while self.running` loop (line 316), fuel-bounded, consuming one
tick environment per iteration. -/
def runLoop (cfg : Config) : ℕ → MState → List TickEnv → MState
  | 0, m, _ => m
  | _ + 1, m, [] => m
  | n + 1, m, e :: es => if m.running then runLoop cfg n (tick cfg e m) es else m

/-- Number of daily reports recorded for calendar day `d`. -/
def reportsOn (evs : List Ev) (d : ℕ) : ℕ :=
  (evs.filter (fun e => match e with | .reported d' _ _ => decide (d' = d) | _ => false)).length

/-- Whether no character of `s` is an (ASCII) uppercase letter. -/
def noUpper (s : String) : Prop :=
  ∀ ch ∈ s.data, ch.isUpper = false

instance (s : String) : Decidable (noUpper s) := by
  unfold noUpper
  infer_instance

/-! ## Lemmas about the detector statistics -/

theorem qmean_nonneg (l : List ℕ) : 0 ≤ qmean l := by
  unfold qmean
  apply div_nonneg
  · exact_mod_cast Nat.zero_le l.sum
  · exact_mod_cast Nat.zero_le l.length

theorem qvar_nonneg (l : List ℕ) (h : 2 ≤ l.length) : 0 ≤ qvar l := by
  unfold qvar
  apply div_nonneg
  · apply List.sum_nonneg
    intro x hx
    obtain ⟨y, _, rfl⟩ := List.mem_map.mp hx
    positivity
  · have : (2 : ℚ) ≤ (l.length : ℚ) := by exact_mod_cast h
    linarith

/-- For a nonnegative radicand, being larger than twice the square root is
the same as being positive with a square exceeding four times the radicand. -/
theorem two_sqrt_lt_iff (a v : ℝ) :
    2 * Real.sqrt v < a ↔ 0 < a ∧ 4 * v < a ^ 2 := by
  have h4 : Real.sqrt (4 * v) = 2 * Real.sqrt v := by
    rw [Real.sqrt_mul (by norm_num : (0:ℝ) ≤ 4) v,
      show (4:ℝ) = 2 ^ 2 by norm_num, Real.sqrt_sq (by norm_num : (0:ℝ) ≤ 2)]
  constructor
  · intro hlt
    have ha : 0 < a := lt_of_le_of_lt (by positivity) hlt
    refine ⟨ha, ?_⟩
    rw [← Real.sqrt_lt' ha, h4]
    exact hlt
  · rintro ⟨ha, hsq⟩
    have := (Real.sqrt_lt' ha).mpr hsq
    rw [h4] at this
    exact this

/-- Transfer of `two_sqrt_lt_iff` to the rational comparisons used in
`detectFlag`. -/
theorem qsq_iff (x v : ℚ) :
    (0 < x ∧ 4 * v < x ^ 2) ↔ 2 * Real.sqrt (v : ℝ) < (x : ℝ) := by
  rw [two_sqrt_lt_iff (x : ℝ) (v : ℝ)]
  constructor
  · rintro ⟨h1, h2⟩
    exact ⟨by exact_mod_cast h1, by exact_mod_cast h2⟩
  · rintro ⟨h1, h2⟩
    exact ⟨by exact_mod_cast h1, by exact_mod_cast h2⟩

/-! ## Claim C1 -/

/-- Claim C1, counterexample.  The claim states that the drop flag is
reachable only in the non-zero-std branch ("no low-threshold check is
triggered when std == 0").  In the source the `elif current < (avg - 2*std)`
check runs after the zero-std branch as well, where it degenerates to
`current < avg`: with samples `[3, 10, 10, 10, 10, 10]` (newest first) the
baseline `[10,10,10,10,10]` has standard deviation 0, yet the detector flags
a drop. -/
theorem claim_C1_counterexample :
    detectFlag [3, 10, 10, 10, 10, 10] = some Flag.drop ∧
      Real.sqrt (qvar [10, 10, 10, 10, 10]) = 0 := by
  constructor
  · norm_num [detectFlag, qmean, qvar]
  · have h : qvar [10, 10, 10, 10, 10] = 0 := by norm_num [qvar, qmean]
    rw [h]
    simp

/-- Claim C1 (amended).  For data `current :: baseline` with at least two
baseline points (i.e. at least 3 recent samples), the detector flags a spike
exactly when `current > avg * 1.5` if the baseline's standard deviation is
0 and exactly when `current > avg + 2*std` otherwise; and it flags a drop
exactly when `current < avg - 2*std` — in both branches, so with `std == 0`
the drop fires exactly when `current < avg` (the original claim's
"drop only reachable in the non-zero-std branch" is refuted by
`claim_C1_counterexample`). -/
theorem claim_C1 (c : ℕ) (b : List ℕ) (hb : 2 ≤ b.length) :
    (detectFlag (c :: b) = some Flag.spike ↔
      ((Real.sqrt (qvar b) = 0 ∧ (qmean b : ℝ) * 1.5 < (c : ℝ)) ∨
       (Real.sqrt (qvar b) ≠ 0 ∧ (qmean b : ℝ) + 2 * Real.sqrt (qvar b) < (c : ℝ))))
  ∧ (detectFlag (c :: b) = some Flag.drop ↔
      (c : ℝ) < (qmean b : ℝ) - 2 * Real.sqrt (qvar b)) := by
  have hV0 : (0:ℚ) ≤ qvar b := qvar_nonneg b hb
  have hA0 : (0:ℚ) ≤ qmean b := qmean_nonneg b
  have hlen : ¬ ((c :: b).length < 3) := by simp only [List.length_cons]; omega
  have hflag : detectFlag (c :: b) =
      (if qvar b = 0 then
        (if qmean b * 1.5 < (c:ℚ) then some Flag.spike
         else if (c:ℚ) < qmean b then some Flag.drop else none)
       else
        (if 0 < (c:ℚ) - qmean b ∧ 4 * qvar b < ((c:ℚ) - qmean b)^2 then some Flag.spike
         else if 0 < qmean b - (c:ℚ) ∧ 4 * qvar b < (qmean b - (c:ℚ))^2 then some Flag.drop
         else none)) := by
    simp only [detectFlag]
    rw [if_neg hlen]
  rw [hflag]
  rw [show (1.5:ℝ) = 3/2 by norm_num, show (1.5:ℚ) = 3/2 by norm_num]
  by_cases hV : qvar b = 0
  · have hsz : Real.sqrt (qvar b) = 0 := by rw [hV]; simp
    have hspq : (qmean b * (3/2) < (c:ℚ)) ↔ ((qmean b : ℝ) * (3/2) < (c:ℝ)) := by
      constructor
      · intro h
        have h' := (@Rat.cast_lt (qmean b * (3/2)) ((c:ℕ):ℚ) ℝ _).mpr h
        push_cast at h'
        exact h'
      · intro h
        have h' : ((qmean b * (3/2) : ℚ) : ℝ) < (((c:ℕ):ℚ) : ℝ) := by push_cast; exact h
        exact (@Rat.cast_lt (qmean b * (3/2)) ((c:ℕ):ℚ) ℝ _).mp h'
    rw [if_pos hV, hsz]
    constructor
    · -- spike iff, zero-std branch
      simp only [eq_self_iff_true, true_and, ne_eq, not_true_eq_false, false_and, or_false]
      split_ifs with h1 h2
      · simpa using hspq.mp h1
      · simp only [Option.some.injEq, reduceCtorEq, false_iff]
        exact fun hcon => h1 (hspq.mpr hcon)
      · simp only [reduceCtorEq, false_iff]
        exact fun hcon => h1 (hspq.mpr hcon)
    · -- drop iff, zero-std branch
      have hR : ((c:ℝ) < (qmean b : ℝ) - 2 * 0) ↔ ((c:ℚ) < qmean b) := by
        constructor
        · intro h; exact_mod_cast (by linarith : (c:ℝ) < (qmean b : ℝ))
        · intro h; have := (by exact_mod_cast h : (c:ℝ) < (qmean b : ℝ)); linarith
      rw [hR]
      split_ifs with h1 h2
      · simp only [Option.some.injEq, reduceCtorEq, false_iff]
        intro hcon
        have : qmean b ≤ (c:ℚ) := by linarith
        exact absurd hcon (not_lt.mpr this)
      · simpa using h2
      · simpa using h2
  · have hVpos : (0:ℚ) < qvar b := lt_of_le_of_ne hV0 (Ne.symm hV)
    have hs : (0:ℝ) < Real.sqrt (qvar b) := Real.sqrt_pos.mpr (by exact_mod_cast hVpos)
    have hsne : Real.sqrt (qvar b) ≠ 0 := ne_of_gt hs
    have hsp : (0 < (c:ℚ) - qmean b ∧ 4 * qvar b < ((c:ℚ) - qmean b)^2) ↔
        (qmean b : ℝ) + 2 * Real.sqrt (qvar b) < (c : ℝ) := by
      rw [qsq_iff ((c:ℚ) - qmean b) (qvar b)]
      have hc : (((c:ℚ) - qmean b : ℚ) : ℝ) = (c:ℝ) - (qmean b : ℝ) := by push_cast; ring
      rw [hc]
      constructor <;> intro h <;> linarith
    have hdr : (0 < qmean b - (c:ℚ) ∧ 4 * qvar b < (qmean b - (c:ℚ))^2) ↔
        (c : ℝ) < (qmean b : ℝ) - 2 * Real.sqrt (qvar b) := by
      rw [qsq_iff (qmean b - (c:ℚ)) (qvar b)]
      have hc : ((qmean b - (c:ℚ) : ℚ) : ℝ) = (qmean b : ℝ) - (c:ℝ) := by push_cast; ring
      rw [hc]
      constructor <;> intro h <;> linarith
    rw [if_neg hV]
    constructor
    · simp only [hsne, false_and, false_or, ne_eq, not_false_eq_true, true_and]
      split_ifs with h1 h2
      · simpa using hsp.mp h1
      · simp only [Option.some.injEq, reduceCtorEq, false_iff]
        intro hcon; exact h1 (hsp.mpr hcon)
      · simp only [reduceCtorEq, false_iff]
        intro hcon; exact h1 (hsp.mpr hcon)
    · split_ifs with h1 h2
      · simp only [Option.some.injEq, reduceCtorEq, false_iff]
        intro hcon
        have h1' := hsp.mp h1
        have h2' := hdr.mpr hcon
        exact absurd h1' (by rcases h2' with _; linarith)
      · simpa using hdr.mp h2
      · simp only [reduceCtorEq, false_iff]
        intro hcon; exact h2 (hdr.mpr hcon)

/-- Claim C1, witness: the amended theorem instantiated at current `20` and
baseline `[10, 12, 8, 11, 9]` (std ≈ 1.58). -/
theorem claim_C1_witness :
    2 ≤ ([10, 12, 8, 11, 9] : List ℕ).length ∧
    ((detectFlag (20 :: [10, 12, 8, 11, 9]) = some Flag.spike ↔
      ((Real.sqrt (qvar [10, 12, 8, 11, 9]) = 0 ∧
          (qmean [10, 12, 8, 11, 9] : ℝ) * 1.5 < ((20 : ℕ) : ℝ)) ∨
       (Real.sqrt (qvar [10, 12, 8, 11, 9]) ≠ 0 ∧
          (qmean [10, 12, 8, 11, 9] : ℝ) + 2 * Real.sqrt (qvar [10, 12, 8, 11, 9]) <
            ((20 : ℕ) : ℝ))))
  ∧ (detectFlag (20 :: [10, 12, 8, 11, 9]) = some Flag.drop ↔
      ((20 : ℕ) : ℝ) < (qmean [10, 12, 8, 11, 9] : ℝ) -
        2 * Real.sqrt (qvar [10, 12, 8, 11, 9]))) :=
  ⟨by decide, claim_C1 20 [10, 12, 8, 11, 9] (by decide)⟩

/-! ## Claim C2 -/

/-- Claim C2: removing a server must cascade so that no orphaned samples
remain.  The schema declares `ON DELETE CASCADE`, but the sqlite3 connection
never enables `PRAGMA foreign_keys`, so SQLite does not enforce the clause:
with one server `a` (id 1) owning one sample, `remove_server "a"` empties
`load_servers` and every windowed query for `a`, yet the sample row with
`server_id = 1` is still present in the store — an orphan, contradicting the
claim (and the schema's own declaration). -/
theorem claim_C2 :
    load_servers ((remove_server ⟨[⟨1, "a", "h"⟩], [⟨some 1, 5, 100⟩], 2⟩ "a").1) = []
  ∧ joinRows ((remove_server ⟨[⟨1, "a", "h"⟩], [⟨some 1, 5, 100⟩], 2⟩ "a").1) "a" = []
  ∧ windowRows ((remove_server ⟨[⟨1, "a", "h"⟩], [⟨some 1, 5, 100⟩], 2⟩ "a").1) "a" 0 = []
  ∧ ((remove_server ⟨[⟨1, "a", "h"⟩], [⟨some 1, 5, 100⟩], 2⟩ "a").1).stats
      = [⟨some 1, 5, 100⟩] := by
  decide

/-! ## Claim C4 -/

/-- A fold with `max` over naturals is zero exactly when every element is. -/
theorem foldr_max_eq_zero (l : List ℕ) : l.foldr max 0 = 0 ↔ ∀ x ∈ l, x = 0 := by
  induction l with
  | nil => simp
  | cons a t ih => simp [Nat.max_eq_zero_iff, ih]

/-- Claim C4, counterexample.  The display code prints `data[0] or 'N/A'`
and `round(data[1], 1) if data[1] else 'N/A'` (lines 142-143), so a window
that contains one sample with count 0 shows peak and average as `N/A`
while `distinctDaysWithData = 1` — refuting "when at least one sample
exists in the window — including windows where every sample's count is
zero — peak and average are shown as numbers, never as absent". -/
theorem claim_C4_counterexample :
    reportRow ⟨[⟨1, "a", "h"⟩], [⟨some 1, 0, 100⟩], 2⟩ "a" 0 = (none, none, 1) ∧
    windowRows ⟨[⟨1, "a", "h"⟩], [⟨some 1, 0, 100⟩], 2⟩ "a" 0 ≠ [] := by
  constructor
  · norm_num [reportRow, windowRows, joinRows, sqlMax, sqlAvg, sqlDays, dayOf]
  · decide

/-- Claim C4 (amended): the aggregate report shows peak (respectively
average) as absent exactly when the window holds no samples or every sample
in it has count zero (Python truthiness maps the aggregate value 0 to
`N/A` just like NULL); `distinctDaysWithData = 0` exactly when the window
holds no samples. -/
theorem claim_C4 (st : Store) (name : String) (cutoff : ℤ) :
    ((reportRow st name cutoff).1 = none ↔
      (windowRows st name cutoff = [] ∨ ∀ r ∈ windowRows st name cutoff, r.online = 0))
  ∧ ((reportRow st name cutoff).2.1 = none ↔
      (windowRows st name cutoff = [] ∨ ∀ r ∈ windowRows st name cutoff, r.online = 0))
  ∧ ((reportRow st name cutoff).2.2 = 0 ↔ windowRows st name cutoff = []) := by
  by_cases hnil : windowRows st name cutoff = []
  · refine ⟨?_, ?_, ?_⟩ <;>
      simp [reportRow, sqlMax, sqlAvg, sqlDays, hnil]
  · have hlen : (windowRows st name cutoff).length ≠ 0 :=
      fun h => hnil (List.length_eq_zero.mp h)
    refine ⟨?_, ?_, ?_⟩
    · -- displayed peak
      simp only [reportRow, sqlMax, if_neg hnil]
      rw [or_iff_right hnil]
      constructor
      · intro h
        by_cases hz : ((windowRows st name cutoff).map (fun r => r.online)).foldr max 0 = 0
        · intro r hr
          have := (foldr_max_eq_zero _).mp hz
          exact this r.online (List.mem_map.mpr ⟨r, hr, rfl⟩)
        · simp [hz] at h
      · intro h
        have hz : ((windowRows st name cutoff).map (fun r => r.online)).foldr max 0 = 0 := by
          apply (foldr_max_eq_zero _).mpr
          intro x hx
          obtain ⟨r, hr, rfl⟩ := List.mem_map.mp hx
          exact h r hr
        simp [hz]
    · -- displayed average
      simp only [reportRow, sqlAvg, if_neg hnil]
      rw [or_iff_right hnil]
      have hsum : ((((windowRows st name cutoff).map (fun r => r.online)).sum : ℕ) : ℚ) /
            ((windowRows st name cutoff).length : ℚ) = 0 ↔
          (∀ r ∈ windowRows st name cutoff, r.online = 0) := by
        rw [div_eq_zero_iff]
        constructor
        · rintro (h | h)
          · intro r hr
            have hnat : ((windowRows st name cutoff).map (fun r => r.online)).sum = 0 := by
              exact_mod_cast h
            exact List.sum_eq_zero_iff.mp hnat r.online (List.mem_map.mpr ⟨r, hr, rfl⟩)
          · exact absurd (by exact_mod_cast h) hlen
        · intro h
          left
          have hnat : ((windowRows st name cutoff).map (fun r => r.online)).sum = 0 :=
            List.sum_eq_zero_iff.mpr (fun x hx => by
              obtain ⟨r, hr, rfl⟩ := List.mem_map.mp hx
              exact h r hr)
          exact_mod_cast hnat
      split_ifs with hz
      · simpa using hsum.mp hz
      · simp only [reduceCtorEq, false_iff]
        exact fun hcon => hz (hsum.mpr hcon)
    · -- day count
      simp only [reportRow, sqlDays]
      constructor
      · intro h
        have hd : ((windowRows st name cutoff).map (fun r => dayOf r.ts)).dedup = [] :=
          List.length_eq_zero.mp h
        have := (List.dedup_eq_nil _).mp hd
        exact List.map_eq_nil_iff.mp this
      · intro h
        exact absurd h hnil


/-! ## Claim C5 -/

/-- Claim C5, counterexample.  The claim states that `deleteSamples` on an
unknown server name "returns a count"; in the source `delete_server_data`
takes the early not-found branch (line 247) and returns no count at all
(it prints the not-found error).  Here the store knows only server `a` and
the command names `b`. -/
theorem claim_C5_counterexample :
    ((delete_server_data ⟨[⟨1, "a", "h"⟩], [], 2⟩ "b").2).isCount = false
  ∧ (delete_server_data ⟨[⟨1, "a", "h"⟩], [], 2⟩ "b").1 = ⟨[⟨1, "a", "h"⟩], [], 2⟩ := by
  decide

/-- Claim C5 (amended): `remove_server` on a name with no matching server
reports not-found (`rowcount = 0`) without raising, and `delete_server_data`
on an unknown name reports not-found (no count) without raising; in both
cases the store is left unchanged. -/
theorem claim_C5 (st : Store) (name : String)
    (h : ∀ r ∈ st.servers, r.name ≠ name) :
    remove_server st name = (st, 0) ∧
    delete_server_data st name = (st, DelOutcome.notFound) := by
  have hkept : st.servers.filter (fun r => r.name ≠ name) = st.servers :=
    List.filter_eq_self.mpr (fun r hr => by simpa using h r hr)
  have hid : get_server_id st name = none := by
    unfold get_server_id
    rw [List.find?_eq_none.mpr (fun r hr => by simpa using h r hr)]
    rfl
  constructor
  · unfold remove_server
    rw [hkept]
    simp
  · unfold delete_server_data
    rw [hid]

/-- Claim C5, witness: a store registering only `a`, asked to remove and to
delete the data of the unknown `b`. -/
theorem claim_C5_witness :
    (∀ r ∈ (⟨[⟨1, "a", "h"⟩], [], 2⟩ : Store).servers, r.name ≠ "b") ∧
    (remove_server ⟨[⟨1, "a", "h"⟩], [], 2⟩ "b" = (⟨[⟨1, "a", "h"⟩], [], 2⟩, 0) ∧
     delete_server_data ⟨[⟨1, "a", "h"⟩], [], 2⟩ "b" =
       (⟨[⟨1, "a", "h"⟩], [], 2⟩, DelOutcome.notFound)) :=
  ⟨by decide, claim_C5 ⟨[⟨1, "a", "h"⟩], [], 2⟩ "b" (by decide)⟩

/-! ## Claim C6 -/

/-- Claim C6: an `add_server` whose name or address duplicates an existing
server's leaves the store completely unchanged (in particular both table row
counts), and — when the reachability probe succeeds, which is the only path
that reaches the INSERT — it is rejected with the duplicate-identity error
(`sqlite3.IntegrityError`, printed as "名称或IP已存在"). -/
theorem claim_C6 (st : Store) (ok : Bool) (name ip : String)
    (hd : st.servers.any (fun r => r.name = name ∨ r.ip = ip) = true) :
    (add_server st ok name ip).1 = st ∧
    (ok = true → (add_server st ok name ip).2 = AddOutcome.duplicate) := by
  unfold add_server
  cases ok with
  | false => simp
  | true =>
    have hx : ∃ x ∈ st.servers, x.name = name ∨ x.ip = ip := by simpa using hd
    simp [hx]

/-- Claim C6, witness: adding `a` again (fresh ip) against a store already
registering `a`, with a successful reachability probe. -/
theorem claim_C6_witness :
    ((⟨[⟨1, "a", "h"⟩], [], 2⟩ : Store).servers.any
        (fun r => r.name = "a" ∨ r.ip = "k") = true) ∧
    ((add_server ⟨[⟨1, "a", "h"⟩], [], 2⟩ true "a" "k").1 = ⟨[⟨1, "a", "h"⟩], [], 2⟩ ∧
     (true = true → (add_server ⟨[⟨1, "a", "h"⟩], [], 2⟩ true "a" "k").2 =
        AddOutcome.duplicate)) :=
  ⟨by decide, claim_C6 ⟨[⟨1, "a", "h"⟩], [], 2⟩ true "a" "k" (by decide)⟩

/-! ## Claim C7 -/

/-- Looking up a server id depends only on the servers table. -/
theorem get_server_id_congr (st₁ st₂ : Store) (h : st₁.servers = st₂.servers) :
    get_server_id st₁ = get_server_id st₂ := by
  funext name
  unfold get_server_id
  rw [h]

/-- One poll step never touches the servers table. -/
theorem collectStep_servers (f : String → Option ℕ) (t : ℕ) (acc : Store × List String)
    (s : String × String) : (collectStep f t acc s).1.servers = acc.1.servers := by
  unfold collectStep
  cases f s.2 <;> rfl

/-- One poll step never touches the id counter. -/
theorem collectStep_nextId (f : String → Option ℕ) (t : ℕ) (acc : Store × List String)
    (s : String × String) : (collectStep f t acc s).1.nextId = acc.1.nextId := by
  unfold collectStep
  cases f s.2 <;> rfl

/-- One poll step appends exactly the successful sample, if any. -/
theorem collectStep_stats (f : String → Option ℕ) (t : ℕ) (acc : Store × List String)
    (s : String × String) :
    (collectStep f t acc s).1.stats = acc.1.stats ++
      ((f s.2).map (fun cnt => (⟨get_server_id acc.1 s.1, cnt, t⟩ : StatRow))).toList := by
  unfold collectStep
  cases f s.2 <;> simp

/-- One poll step reports exactly the failed server, if any. -/
theorem collectStep_snd (f : String → Option ℕ) (t : ℕ) (acc : Store × List String)
    (s : String × String) :
    (collectStep f t acc s).2 = acc.2 ++ (if f s.2 = none then [s.1] else []) := by
  unfold collectStep
  cases f s.2 <;> simp

/-- Invariant of the polling fold over any server list. -/
theorem collect_foldl (f : String → Option ℕ) (t : ℕ) (l : List (String × String))
    (acc : Store × List String) :
    (l.foldl (collectStep f t) acc).1.servers = acc.1.servers ∧
    (l.foldl (collectStep f t) acc).1.nextId = acc.1.nextId ∧
    (l.foldl (collectStep f t) acc).1.stats =
      acc.1.stats ++ l.filterMap
        (fun s => (f s.2).map (fun cnt => ⟨get_server_id acc.1 s.1, cnt, t⟩)) ∧
    (l.foldl (collectStep f t) acc).2 =
      acc.2 ++ l.filterMap (fun s => if f s.2 = none then some s.1 else none) := by
  induction l generalizing acc with
  | nil => simp
  | cons s l ih =>
    obtain ⟨ih1, ih2, ih3, ih4⟩ := ih (collectStep f t acc s)
    have hserv := collectStep_servers f t acc s
    have hid : get_server_id (collectStep f t acc s).1 = get_server_id acc.1 :=
      get_server_id_congr _ _ hserv
    rw [hid] at ih3
    rw [List.foldl_cons]
    refine ⟨by rw [ih1, hserv], by rw [ih2, collectStep_nextId], ?_, ?_⟩
    · rw [ih3, collectStep_stats]
      cases hf : f s.2 with
      | some cnt => simp [List.filterMap_cons, hf]
      | none => simp [List.filterMap_cons, hf]
    · rw [ih4, collectStep_snd]
      cases hf : f s.2 with
      | some cnt => simp [List.filterMap_cons, hf]
      | none => simp [List.filterMap_cons, hf]

/-- Claim C7: in one poll round over the registered servers (in listing
order), every server whose status call succeeds gets exactly one new sample
holding the returned count (appended in order, timestamped with the round),
every server whose call fails gets no sample and is reported in the failure
list, and a failure never prevents the remaining servers from being polled:
the round's result is determined pointwise by the per-server outcomes, with
the servers table and id counter untouched. -/
theorem claim_C7 (st : Store) (f : String → Option ℕ) (t : ℕ) :
    (collect_data st f t).1.servers = st.servers
  ∧ (collect_data st f t).1.nextId = st.nextId
  ∧ (collect_data st f t).1.stats =
      st.stats ++ (load_servers st).filterMap
        (fun s => (f s.2).map (fun cnt => ⟨get_server_id st s.1, cnt, t⟩))
  ∧ (collect_data st f t).2 =
      (load_servers st).filterMap (fun s => if f s.2 = none then some s.1 else none) := by
  have h := collect_foldl f t (load_servers st) (st, [])
  simpa [collect_data] using h

/-! ## Claim C8 -/

/-- The trend handler never writes to the store. -/
theorem handle_trend_fst (st : Store) (nowT : ℕ) (parts : List String) :
    (handle_trend st nowT parts).1 = st := by
  unfold handle_trend
  cases parts with
  | nil => rfl
  | cons a tl =>
    cases tl with
    | nil => rfl
    | cons b tl2 =>
      cases tl2 with
      | nil => rfl
      | cons c tl3 => rfl

/-- Claim C8: a trend command (at least one name, integer day count) whose
name list contains any server unknown to the store is rejected as a whole —
the outcome is the error naming exactly the unknown servers, no artifact is
produced for any of the names, and the store is unchanged; when every name
exists the trend is rendered by `plot_trend`. -/
theorem claim_C8 (st : Store) (nowT : ℕ) (dTok : String) (names : List String)
    (hne : names ≠ []) :
    (handle_trend st nowT ("trend" :: dTok :: names)).1 = st
  ∧ (∀ d, parseInt dTok = some d →
      ((names.filter (fun n => decide (n ∉ validNames st)) ≠ [] →
          (handle_trend st nowT ("trend" :: dTok :: names)).2 =
            TrendOutcome.unknown (names.filter (fun n => decide (n ∉ validNames st))) ∧
          ((handle_trend st nowT ("trend" :: dTok :: names)).2).producesArtifact = false)
       ∧ ((∀ n ∈ names, n ∈ validNames st) →
          (handle_trend st nowT ("trend" :: dTok :: names)).2 =
            plot_trend st nowT names d))) := by
  obtain ⟨n1, rest, rfl⟩ := List.exists_cons_of_ne_nil hne
  refine ⟨handle_trend_fst _ _ _, ?_⟩
  intro d hd
  have hbody : (handle_trend st nowT ("trend" :: dTok :: n1 :: rest)).2 =
      (if (n1 :: rest).filter (fun n => decide (n ∉ validNames st)) = []
       then plot_trend st nowT (n1 :: rest) d
       else TrendOutcome.unknown ((n1 :: rest).filter (fun n => decide (n ∉ validNames st)))) := by
    simp only [handle_trend, hd]
  constructor
  · intro hinv
    rw [hbody, if_neg hinv]
    exact ⟨rfl, rfl⟩
  · intro hall
    have hnilf : (n1 :: rest).filter (fun n => decide (n ∉ validNames st)) = [] := by
      apply List.filter_eq_nil_iff.mpr
      intro a ha
      simpa using hall a ha
    rw [hbody, if_pos hnilf]

/-- Claim C8, witness: store knowing only `a`, command `trend 7 a b` — `b`
is unknown, so the command is rejected naming `b` and no artifact is
produced. -/
theorem claim_C8_witness :
    (["a", "b"] : List String) ≠ [] ∧
    ((handle_trend ⟨[⟨1, "a", "h"⟩], [], 2⟩ 1000 ("trend" :: "7" :: ["a", "b"])).1 =
        ⟨[⟨1, "a", "h"⟩], [], 2⟩
     ∧ (∀ d, parseInt "7" = some d →
        ((["a", "b"].filter (fun n => decide (n ∉ validNames ⟨[⟨1, "a", "h"⟩], [], 2⟩)) ≠ [] →
            (handle_trend ⟨[⟨1, "a", "h"⟩], [], 2⟩ 1000 ("trend" :: "7" :: ["a", "b"])).2 =
              TrendOutcome.unknown
                (["a", "b"].filter (fun n => decide (n ∉ validNames ⟨[⟨1, "a", "h"⟩], [], 2⟩))) ∧
            ((handle_trend ⟨[⟨1, "a", "h"⟩], [], 2⟩ 1000 ("trend" :: "7" :: ["a", "b"])).2).producesArtifact
              = false)
         ∧ ((∀ n ∈ (["a", "b"] : List String), n ∈ validNames ⟨[⟨1, "a", "h"⟩], [], 2⟩) →
            (handle_trend ⟨[⟨1, "a", "h"⟩], [], 2⟩ 1000 ("trend" :: "7" :: ["a", "b"])).2 =
              plot_trend ⟨[⟨1, "a", "h"⟩], [], 2⟩ 1000 ["a", "b"] d)))) :=
  ⟨by decide, claim_C8 ⟨[⟨1, "a", "h"⟩], [], 2⟩ 1000 "7" ["a", "b"] (by decide)⟩

/-! ## Claim C9 -/

/-- ASCII lowercasing never leaves an uppercase letter. -/
theorem toLower_not_upper (c : Char) : (Char.toLower c).isUpper = false := by
  unfold Char.toLower
  by_cases h : c.toNat ≥ 65 ∧ c.toNat ≤ 90
  · rw [if_pos h]
    obtain ⟨h1, h2⟩ := h
    set n := c.toNat with hn
    interval_cases n <;> decide
  · rw [if_neg h]
    simp only [Char.isUpper]
    simp only [ge_iff_le] at h
    rw [Bool.and_eq_false_iff]
    by_cases h65 : 65 ≤ c.toNat
    · right
      have h90 : ¬ c.toNat ≤ 90 := fun hc => h ⟨h65, hc⟩
      simp only [decide_eq_false_iff_not]
      intro hv
      apply h90
      exact_mod_cast hv
    · left
      simp only [decide_eq_false_iff_not]
      intro hv
      apply h65
      exact_mod_cast hv

/-- Every character of a lowercased string is non-uppercase. -/
theorem lowerStr_noUpper (s : String) : noUpper (lowerStr s) := by
  intro ch hch
  obtain ⟨y, _, rfl⟩ := List.mem_map.mp hch
  exact toLower_not_upper y

/-- Characters of any word produced by the splitter come from the input or
the accumulator. -/
theorem wordsAux_chars (l : List Char) : ∀ (acc : List Char), ∀ w ∈ wordsAux l acc,
    ∀ ch ∈ w, ch ∈ l ∨ ch ∈ acc := by
  induction l with
  | nil =>
    intro acc w hw ch hch
    unfold wordsAux at hw
    split at hw
    · simp at hw
    · simp only [List.mem_singleton] at hw
      subst hw
      exact Or.inr (List.mem_reverse.mp hch)
  | cons c cs ih =>
    intro acc w hw ch hch
    unfold wordsAux at hw
    by_cases hws : c.isWhitespace
    · rw [if_pos hws] at hw
      by_cases hacc : acc = []
      · rw [if_pos hacc] at hw
        rcases ih [] w hw ch hch with h | h
        · exact Or.inl (List.mem_cons_of_mem _ h)
        · simp at h
      · rw [if_neg hacc] at hw
        rcases List.mem_cons.mp hw with rfl | hw'
        · exact Or.inr (List.mem_reverse.mp hch)
        · rcases ih [] w hw' ch hch with h | h
          · exact Or.inl (List.mem_cons_of_mem _ h)
          · simp at h
    · rw [if_neg hws] at hw
      rcases ih (c :: acc) w hw ch hch with h | h
      · exact Or.inl (List.mem_cons_of_mem _ h)
      · rcases List.mem_cons.mp h with rfl | h2
        · exact Or.inl (List.mem_cons_self _ _)
        · exact Or.inr h2

/-- Characters of any token come from the tokenized string. -/
theorem tokens_chars (s tok : String) (htok : tok ∈ tokens s) :
    ∀ ch ∈ tok.data, ch ∈ s.data := by
  intro ch hch
  unfold tokens at htok
  obtain ⟨w, hw, rfl⟩ := List.mem_map.mp htok
  have := wordsAux_chars s.data [] w hw ch hch
  simpa using this

/-- Deleting a server's samples never touches the servers table. -/
theorem delete_server_data_servers (st : Store) (name : String) :
    (delete_server_data st name).1.servers = st.servers := by
  unfold delete_server_data
  split
  · rfl
  · split_ifs <;> rfl

/-- The trend command never changes the store. -/
theorem handle_trend_cmd_store (m : MState) (now : Now) (cmd : String) :
    (handle_trend_cmd m now cmd).store = m.store := by
  unfold handle_trend_cmd
  simp [handle_trend_fst]

/-- The report command never changes the store. -/
theorem handle_report_store (m : MState) (now : Now) (cmd : String) :
    (handle_report m now cmd).store = m.store := by
  unfold handle_report
  split
  · split <;> rfl
  · rfl

/-- A server present after an add command was present before or carries a
name and address taken verbatim from the command's tokens. -/
theorem handle_add_servers (env : TickEnv) (m : MState) (cmd : String) (r : ServerRow)
    (hr : r ∈ (handle_add env m cmd).store.servers) :
    r ∈ m.store.servers ∨ (r.name ∈ tokens cmd ∧ r.ip ∈ tokens cmd) := by
  unfold handle_add at hr
  split at hr
  case h_1 x t0 name ip heq =>
    unfold add_server at hr
    split_ifs at hr
    · exact Or.inl hr
    · exact Or.inl hr
    · rcases List.mem_append.mp hr with h | h
      · exact Or.inl h
      · simp only [List.mem_singleton] at h
        subst h
        rw [heq]
        exact Or.inr ⟨by simp, by simp⟩
  case h_2 => exact Or.inl hr

/-- The remove command only ever shrinks the servers table. -/
theorem handle_remove_servers (m : MState) (cmd : String) (r : ServerRow)
    (hr : r ∈ (handle_remove m cmd).store.servers) : r ∈ m.store.servers := by
  unfold handle_remove at hr
  split at hr
  case h_1 => exact (List.mem_filter.mp hr).1
  case h_2 => exact hr

/-- The delete command never touches the servers table. -/
theorem handle_delete_servers (m : MState) (cmd : String) (r : ServerRow)
    (hr : r ∈ (handle_delete m cmd).store.servers) : r ∈ m.store.servers := by
  unfold handle_delete at hr
  split at hr
  case h_1 x t0 name heq =>
    rw [delete_server_data_servers] at hr
    exact hr
  case h_2 => exact hr

/-- Any server present after executing one command was present before or has
name and address taken from the command's tokens. -/
theorem executeCommand_servers (env : TickEnv) (m : MState) (cmd : String) (r : ServerRow)
    (hr : r ∈ (executeCommand env m cmd).store.servers) :
    r ∈ m.store.servers ∨ (r.name ∈ tokens cmd ∧ r.ip ∈ tokens cmd) := by
  unfold executeCommand at hr
  by_cases h1 : cmd = "exit"
  · rw [if_pos h1] at hr
    exact Or.inl hr
  · rw [if_neg h1] at hr
    by_cases h2 : cmd = "help"
    · rw [if_pos h2] at hr
      exact Or.inl hr
    · rw [if_neg h2] at hr
      by_cases h3 : cmd = "now"
      · rw [if_pos h3] at hr
        exact Or.inl hr
      · rw [if_neg h3] at hr
        by_cases h4 : cmd = "list"
        · rw [if_pos h4] at hr
          exact Or.inl hr
        · rw [if_neg h4] at hr
          by_cases h5 : strStartsWith cmd "add" = true
          · rw [if_pos h5] at hr
            exact handle_add_servers env m cmd r hr
          · rw [if_neg h5] at hr
            by_cases h6 : strStartsWith cmd "remove" = true
            · rw [if_pos h6] at hr
              exact Or.inl (handle_remove_servers m cmd r hr)
            · rw [if_neg h6] at hr
              by_cases h7 : strStartsWith cmd "delete" = true
              · rw [if_pos h7] at hr
                exact Or.inl (handle_delete_servers m cmd r hr)
              · rw [if_neg h7] at hr
                by_cases h8 : strStartsWith cmd "report" = true
                · rw [if_pos h8] at hr
                  rw [handle_report_store] at hr
                  exact Or.inl hr
                · rw [if_neg h8] at hr
                  by_cases h9 : strStartsWith cmd "trend" = true
                  · rw [if_pos h9] at hr
                    rw [handle_trend_cmd_store] at hr
                    exact Or.inl hr
                  · rw [if_neg h9] at hr
                    by_cases h10 : cmd = "config"
                    · rw [if_pos h10] at hr
                      exact Or.inl hr
                    · rw [if_neg h10] at hr
                      exact Or.inl hr

/-- Claim C9: every interactive line is whitespace-stripped and lowercased
before being enqueued and parsed; consequently the enqueued command contains
no uppercase letter, neither does any token of it (the names matched by
remove, delete and trend, and the name and address stored by add, are
tokens of the lowercased line), and a server with an uppercase letter in
its name or address can never be created through the interactive
interface. -/
theorem claim_C9 (raw cmd : String) (h : inputLine raw = some cmd) :
    cmd = lowerStr (pyStrip raw)
  ∧ noUpper cmd
  ∧ (∀ tok ∈ tokens cmd, noUpper tok)
  ∧ (∀ env : TickEnv, ∀ m : MState, ∀ r : ServerRow,
      r ∈ (executeCommand env m cmd).store.servers →
      r ∈ m.store.servers ∨ (noUpper r.name ∧ noUpper r.ip)) := by
  have hcmd : cmd = lowerStr (pyStrip raw) := by
    simp only [inputLine] at h
    split_ifs at h
    exact (Option.some.inj h).symm
  subst hcmd
  have hnu : noUpper (lowerStr (pyStrip raw)) := lowerStr_noUpper _
  refine ⟨rfl, hnu, ?_, ?_⟩
  · intro tok htok ch hch
    exact hnu ch (tokens_chars _ tok htok ch hch)
  · intro env m r hr
    rcases executeCommand_servers env m _ r hr with hmem | ⟨hn, hi⟩
    · exact Or.inl hmem
    · refine Or.inr ⟨?_, ?_⟩
      · intro ch hch
        exact hnu ch (tokens_chars _ _ hn ch hch)
      · intro ch hch
        exact hnu ch (tokens_chars _ _ hi ch hch)

/-- Claim C9, witness: the typed line ` Add SrvA 1.2.3.4 ` is enqueued as
`add srva 1.2.3.4`. -/
theorem claim_C9_witness :
    inputLine " Add SrvA 1.2.3.4 " = some "add srva 1.2.3.4" ∧
    ("add srva 1.2.3.4" = lowerStr (pyStrip " Add SrvA 1.2.3.4 ")
     ∧ noUpper "add srva 1.2.3.4"
     ∧ (∀ tok ∈ tokens "add srva 1.2.3.4", noUpper tok)
     ∧ (∀ env : TickEnv, ∀ m : MState, ∀ r : ServerRow,
         r ∈ (executeCommand env m "add srva 1.2.3.4").store.servers →
         r ∈ m.store.servers ∨ (noUpper r.name ∧ noUpper r.ip))) :=
  ⟨by decide, claim_C9 " Add SrvA 1.2.3.4 " "add srva 1.2.3.4" (by decide)⟩

/-! ## Claims C3 and C10: scheduler lemmas -/

/-- Processing `exit` only clears the running flag (line 360-361); store, timers and events are untouched. -/
theorem executeCommand_exit (env : TickEnv) (m : MState) :
    executeCommand env m "exit" = { m with running := false } := rfl

/-- Reporting never touches the running flag. -/
theorem runReport_running (m : MState) (now : Now) (d : ℤ) :
    (runReport m now d).running = m.running := rfl

/-- The add command never touches the running flag. -/
theorem handle_add_running (env : TickEnv) (m : MState) (cmd : String) :
    (handle_add env m cmd).running = m.running := by
  unfold handle_add
  split <;> rfl

/-- The remove command never touches the running flag. -/
theorem handle_remove_running (m : MState) (cmd : String) :
    (handle_remove m cmd).running = m.running := by
  unfold handle_remove
  split <;> rfl

/-- The delete command never touches the running flag. -/
theorem handle_delete_running (m : MState) (cmd : String) :
    (handle_delete m cmd).running = m.running := by
  unfold handle_delete
  split <;> rfl

/-- The report command never touches the running flag. -/
theorem handle_report_running (m : MState) (now : Now) (cmd : String) :
    (handle_report m now cmd).running = m.running := by
  unfold handle_report
  split
  · split <;> rfl
  · rfl

/-- The trend command never touches the running flag. -/
theorem handle_trend_cmd_running (m : MState) (now : Now) (cmd : String) :
    (handle_trend_cmd m now cmd).running = m.running := rfl

/-- Only `exit` changes the running flag, and only to false. -/
theorem executeCommand_running (env : TickEnv) (m : MState) (cmd : String) :
    (executeCommand env m cmd).running = (if cmd = "exit" then false else m.running) := by
  unfold executeCommand
  by_cases h1 : cmd = "exit"
  · rw [if_pos h1, if_pos h1]
  · rw [if_neg h1, if_neg h1]
    by_cases h2 : cmd = "help"
    · rw [if_pos h2]
    · rw [if_neg h2]
      by_cases h3 : cmd = "now"
      · rw [if_pos h3]
      · rw [if_neg h3]
        by_cases h4 : cmd = "list"
        · rw [if_pos h4]
        · rw [if_neg h4]
          by_cases h5 : strStartsWith cmd "add" = true
          · rw [if_pos h5]
            exact handle_add_running env m cmd
          · rw [if_neg h5]
            by_cases h6 : strStartsWith cmd "remove" = true
            · rw [if_pos h6]
              exact handle_remove_running m cmd
            · rw [if_neg h6]
              by_cases h7 : strStartsWith cmd "delete" = true
              · rw [if_pos h7]
                exact handle_delete_running m cmd
              · rw [if_neg h7]
                by_cases h8 : strStartsWith cmd "report" = true
                · rw [if_pos h8]
                  exact handle_report_running m env.now cmd
                · rw [if_neg h8]
                  by_cases h9 : strStartsWith cmd "trend" = true
                  · rw [if_pos h9]
                    exact handle_trend_cmd_running m env.now cmd
                  · rw [if_neg h9]
                    by_cases h10 : cmd = "config"
                    · rw [if_pos h10]
                    · rw [if_neg h10]

/-- Draining a queue splits over concatenation as long as no empty string interrupts the drain. -/
theorem processInput_append (env : TickEnv) (m : MState) (cs1 cs2 : List String)
    (h1 : "" ∉ cs1) :
    processInput env m (cs1 ++ cs2) = processInput env (processInput env m cs1) cs2 := by
  induction cs1 generalizing m with
  | nil => rfl
  | cons c cs ih =>
    have hc : ¬ c = "" := fun h => h1 (h ▸ List.mem_cons_self c cs)
    have h1' : "" ∉ cs := fun h => h1 (List.mem_cons_of_mem c h)
    simp only [List.cons_append, processInput, if_neg hc]
    exact ih (executeCommand env m c) h1'

/-- Once the running flag is false, draining more commands keeps it false. -/
theorem processInput_running_false (env : TickEnv) (cs : List String) (m : MState)
    (h : m.running = false) : (processInput env m cs).running = false := by
  induction cs generalizing m with
  | nil => exact h
  | cons c cs ih =>
    unfold processInput
    split_ifs
    · exact h
    · apply ih
      rw [executeCommand_running]
      split_ifs <;> simp [h]

/-- The poll step never touches the running flag. -/
theorem collectPhase_running (cfg : Config) (env : TickEnv) (m : MState) :
    (collectPhase cfg env m).running = m.running := by
  unfold collectPhase
  split_ifs <;> rfl

/-- The report step never touches the running flag. -/
theorem reportPhase_running (env : TickEnv) (m : MState) :
    (reportPhase env m).running = m.running := by
  unfold reportPhase
  split_ifs <;> rfl

/-- The cleanup step never touches the running flag. -/
theorem cleanPhase_running (cfg : Config) (env : TickEnv) (m : MState) :
    (cleanPhase cfg env m).running = m.running := by
  unfold cleanPhase
  split_ifs
  · split <;> rfl
  · rfl

/-- The anomaly step never touches the running flag. -/
theorem anomalyPhase_running (env : TickEnv) (m : MState) :
    (anomalyPhase env m).running = m.running := by
  unfold anomalyPhase
  split_ifs <;> rfl

/-- The scheduled part of a tick never touches the running flag: it runs regardless of a pending exit. -/
theorem applyScheduled_running (cfg : Config) (env : TickEnv) (m : MState) :
    (applyScheduled cfg env m).running = m.running := by
  unfold applyScheduled
  rw [anomalyPhase_running, cleanPhase_running, reportPhase_running, collectPhase_running]

/-- The poll step only appends events. -/
theorem collectPhase_mem (cfg : Config) (env : TickEnv) (m : MState) (e : Ev)
    (he : e ∈ m.events) : e ∈ (collectPhase cfg env m).events := by
  unfold collectPhase
  split_ifs
  · exact List.mem_append_left _ he
  · exact he

/-- The report step only appends events. -/
theorem reportPhase_mem (env : TickEnv) (m : MState) (e : Ev)
    (he : e ∈ m.events) : e ∈ (reportPhase env m).events := by
  unfold reportPhase
  split_ifs
  · exact List.mem_append_left _ he
  · exact he

/-- The cleanup step only appends events. -/
theorem cleanPhase_mem (cfg : Config) (env : TickEnv) (m : MState) (e : Ev)
    (he : e ∈ m.events) : e ∈ (cleanPhase cfg env m).events := by
  unfold cleanPhase
  split_ifs
  · split
    · exact List.mem_append_left _ he
    · exact List.mem_append_left _ he
  · exact he

/-- The anomaly step only appends events. -/
theorem anomalyPhase_mem (env : TickEnv) (m : MState) (e : Ev)
    (he : e ∈ m.events) : e ∈ (anomalyPhase env m).events := by
  unfold anomalyPhase
  split_ifs
  · exact List.mem_append_left _ he
  · exact he

/-- When the poll interval has elapsed the poll step records a poll round. -/
theorem collectPhase_fires (cfg : Config) (env : TickEnv) (m : MState)
    (h : cfg.interval ≤ env.now.t - m.lastCollect) :
    Ev.collected (collect_data m.store env.statusOf env.now.t).2 ∈
      (collectPhase cfg env m).events := by
  unfold collectPhase
  rw [if_pos h]
  exact List.mem_append_right _ (List.mem_singleton.mpr rfl)

/-- Within the daily window the report step records a report. -/
theorem reportPhase_fires (env : TickEnv) (m : MState)
    (h : env.now.hour = 8 ∧ env.now.minute < 5) :
    Ev.reported env.now.day 1 (generate_report m.store env.now.t 1) ∈
      (reportPhase env m).events := by
  unfold reportPhase
  rw [if_pos h]
  exact List.mem_append_right _ (List.mem_singleton.mpr rfl)

/-- When a week has elapsed the cleanup step records a cleanup (skipped or performed). -/
theorem cleanPhase_fires (cfg : Config) (env : TickEnv) (m : MState)
    (h : 7 ≤ env.now.day - m.lastCleanDay) :
    Ev.cleanSkipped ∈ (cleanPhase cfg env m).events ∨
      ∃ n, Ev.cleaned n ∈ (cleanPhase cfg env m).events := by
  unfold cleanPhase
  rw [if_pos h]
  unfold clean_old_data
  by_cases hnd : cfg.neverDelete = true
  · rw [if_pos hnd]
    exact Or.inl (List.mem_append_right _ (List.mem_singleton.mpr rfl))
  · rw [if_neg hnd]
    exact Or.inr ⟨_, List.mem_append_right _ (List.mem_singleton.mpr rfl)⟩

/-- At minute 0 the anomaly step records a detection pass. -/
theorem anomalyPhase_fires (env : TickEnv) (m : MState)
    (h : env.now.minute = 0) :
    Ev.anomaly (detect_anomalies m.store) ∈ (anomalyPhase env m).events := by
  unfold anomalyPhase
  rw [if_pos h]
  exact List.mem_append_right _ (List.mem_singleton.mpr rfl)

/-- The poll step never touches the cleanup timer. -/
theorem collectPhase_lastCleanDay (cfg : Config) (env : TickEnv) (m : MState) :
    (collectPhase cfg env m).lastCleanDay = m.lastCleanDay := by
  unfold collectPhase
  split_ifs <;> rfl

/-- The report step never touches the cleanup timer. -/
theorem reportPhase_lastCleanDay (env : TickEnv) (m : MState) :
    (reportPhase env m).lastCleanDay = m.lastCleanDay := by
  unfold reportPhase
  split_ifs <;> rfl

/-- With the running flag false, the loop exits without running another tick. -/
theorem runLoop_stopped (cfg : Config) (fuel : ℕ) (m : MState) (envs : List TickEnv)
    (h : m.running = false) : runLoop cfg fuel m envs = m := by
  cases fuel with
  | zero => rfl
  | succ n =>
    cases envs with
    | nil => rfl
    | cons e es =>
      unfold runLoop
      rw [if_neg (by rw [h]; exact Bool.false_ne_true)]

/-- Unfolding one drained command. -/
theorem processInput_cons (env : TickEnv) (m : MState) (c : String) (cs : List String)
    (hc : ¬ c = "") :
    processInput env m (c :: cs) = processInput env (executeCommand env m c) cs := by
  simp only [processInput, if_neg hc]

/-- Claim C10: processing `exit` only sets the termination flag; commands
still pending in the queue in the same tick (none of which is the empty
string — the producer never enqueues one) are drained and executed after
it, the tick's remaining scheduled actions whose conditions hold (poll,
daily report, weekly cleanup, hourly anomaly check) still run once in that
tick, and the loop terminates afterwards: any further iteration returns the
state unchanged. -/
theorem claim_C10 (cfg : Config) (env : TickEnv) (m : MState) (cs1 cs2 : List String)
    (h1 : "" ∉ cs1) (h2 : "" ∉ cs2) (hq : env.cmds = cs1 ++ "exit" :: cs2) :
    executeCommand env m "exit" = { m with running := false }
  ∧ tick cfg env m =
      applyScheduled cfg env
        (processInput env { processInput env m cs1 with running := false } cs2)
  ∧ (tick cfg env m).running = false
  ∧ (env.now.hour = 8 ∧ env.now.minute < 5 →
      ∃ lines, Ev.reported env.now.day 1 lines ∈ (tick cfg env m).events)
  ∧ (env.now.minute = 0 → ∃ fl, Ev.anomaly fl ∈ (tick cfg env m).events)
  ∧ (cfg.interval ≤ env.now.t - (processInput env m env.cmds).lastCollect →
      ∃ fails, Ev.collected fails ∈ (tick cfg env m).events)
  ∧ (7 ≤ env.now.day - (processInput env m env.cmds).lastCleanDay →
      Ev.cleanSkipped ∈ (tick cfg env m).events ∨
        ∃ n, Ev.cleaned n ∈ (tick cfg env m).events)
  ∧ (∀ fuel rest, runLoop cfg fuel (tick cfg env m) rest = tick cfg env m) := by
  have hsplit : processInput env m env.cmds =
      processInput env { processInput env m cs1 with running := false } cs2 := by
    rw [hq, processInput_append env m cs1 ("exit" :: cs2) h1,
      processInput_cons env (processInput env m cs1) "exit" cs2 (by decide),
      executeCommand_exit]
  have htick : tick cfg env m =
      applyScheduled cfg env (processInput env m env.cmds) := rfl
  have hpr : (processInput env m env.cmds).running = false := by
    rw [hsplit]
    exact processInput_running_false env cs2 _ rfl
  have hrun : (tick cfg env m).running = false := by
    rw [htick, applyScheduled_running]
    exact hpr
  refine ⟨executeCommand_exit env m, ?_, hrun, ?_, ?_, ?_, ?_, ?_⟩
  · rw [htick, hsplit]
  · intro hw
    exact ⟨_, anomalyPhase_mem env _ _
      (cleanPhase_mem cfg env _ _
        (reportPhase_fires env (collectPhase cfg env (processInput env m env.cmds)) hw))⟩
  · intro h0
    exact ⟨_, anomalyPhase_fires env
      (cleanPhase cfg env (reportPhase env (collectPhase cfg env (processInput env m env.cmds)))) h0⟩
  · intro hc
    exact ⟨_, anomalyPhase_mem env _ _
      (cleanPhase_mem cfg env _ _
        (reportPhase_mem env _ _
          (collectPhase_fires cfg env (processInput env m env.cmds) hc)))⟩
  · intro hcl
    have hcl' : 7 ≤ env.now.day -
        (reportPhase env (collectPhase cfg env (processInput env m env.cmds))).lastCleanDay := by
      rw [reportPhase_lastCleanDay, collectPhase_lastCleanDay]
      exact hcl
    rcases cleanPhase_fires cfg env
        (reportPhase env (collectPhase cfg env (processInput env m env.cmds))) hcl' with h | ⟨n, h⟩
    · exact Or.inl (anomalyPhase_mem env _ _ h)
    · exact Or.inr ⟨n, anomalyPhase_mem env _ _ h⟩
  · intro fuel rest
    exact runLoop_stopped cfg fuel _ rest hrun

/-- Claim C10, witness: queue `list`, `exit`, `help` on a tick at day 5, 08:00 with an elapsed poll interval. -/
theorem claim_C10_witness :
    (("" : String) ∉ (["list"] : List String)
     ∧ ("" : String) ∉ (["help"] : List String)
     ∧ (⟨⟨1000, 5, 8, 0⟩, fun _ => none, ["list", "exit", "help"]⟩ : TickEnv).cmds =
         ["list"] ++ "exit" :: ["help"])
  ∧ (executeCommand ⟨⟨1000, 5, 8, 0⟩, fun _ => none, ["list", "exit", "help"]⟩
        ⟨⟨[], [], 1⟩, true, 0, ⟨0, 0, 0, 0⟩, 0, []⟩ "exit" =
        { (⟨⟨[], [], 1⟩, true, 0, ⟨0, 0, 0, 0⟩, 0, []⟩ : MState) with running := false }
     ∧ tick ⟨300, true⟩ ⟨⟨1000, 5, 8, 0⟩, fun _ => none, ["list", "exit", "help"]⟩
          ⟨⟨[], [], 1⟩, true, 0, ⟨0, 0, 0, 0⟩, 0, []⟩ =
        applyScheduled ⟨300, true⟩ ⟨⟨1000, 5, 8, 0⟩, fun _ => none, ["list", "exit", "help"]⟩
          (processInput ⟨⟨1000, 5, 8, 0⟩, fun _ => none, ["list", "exit", "help"]⟩
            { (processInput ⟨⟨1000, 5, 8, 0⟩, fun _ => none, ["list", "exit", "help"]⟩
                 ⟨⟨[], [], 1⟩, true, 0, ⟨0, 0, 0, 0⟩, 0, []⟩ ["list"]) with running := false }
            ["help"])
     ∧ (tick ⟨300, true⟩ ⟨⟨1000, 5, 8, 0⟩, fun _ => none, ["list", "exit", "help"]⟩
          ⟨⟨[], [], 1⟩, true, 0, ⟨0, 0, 0, 0⟩, 0, []⟩).running = false
     ∧ ((⟨⟨1000, 5, 8, 0⟩, fun _ => none, ["list", "exit", "help"]⟩ : TickEnv).now.hour = 8
          ∧ (⟨⟨1000, 5, 8, 0⟩, fun _ => none, ["list", "exit", "help"]⟩ : TickEnv).now.minute < 5 →
        ∃ lines, Ev.reported
            (⟨⟨1000, 5, 8, 0⟩, fun _ => none, ["list", "exit", "help"]⟩ : TickEnv).now.day 1 lines ∈
          (tick ⟨300, true⟩ ⟨⟨1000, 5, 8, 0⟩, fun _ => none, ["list", "exit", "help"]⟩
            ⟨⟨[], [], 1⟩, true, 0, ⟨0, 0, 0, 0⟩, 0, []⟩).events)
     ∧ ((⟨⟨1000, 5, 8, 0⟩, fun _ => none, ["list", "exit", "help"]⟩ : TickEnv).now.minute = 0 →
        ∃ fl, Ev.anomaly fl ∈
          (tick ⟨300, true⟩ ⟨⟨1000, 5, 8, 0⟩, fun _ => none, ["list", "exit", "help"]⟩
            ⟨⟨[], [], 1⟩, true, 0, ⟨0, 0, 0, 0⟩, 0, []⟩).events)
     ∧ ((⟨300, true⟩ : Config).interval ≤
          (⟨⟨1000, 5, 8, 0⟩, fun _ => none, ["list", "exit", "help"]⟩ : TickEnv).now.t -
          (processInput ⟨⟨1000, 5, 8, 0⟩, fun _ => none, ["list", "exit", "help"]⟩
            ⟨⟨[], [], 1⟩, true, 0, ⟨0, 0, 0, 0⟩, 0, []⟩
            (⟨⟨1000, 5, 8, 0⟩, fun _ => none, ["list", "exit", "help"]⟩ : TickEnv).cmds).lastCollect →
        ∃ fails, Ev.collected fails ∈
          (tick ⟨300, true⟩ ⟨⟨1000, 5, 8, 0⟩, fun _ => none, ["list", "exit", "help"]⟩
            ⟨⟨[], [], 1⟩, true, 0, ⟨0, 0, 0, 0⟩, 0, []⟩).events)
     ∧ (7 ≤ (⟨⟨1000, 5, 8, 0⟩, fun _ => none, ["list", "exit", "help"]⟩ : TickEnv).now.day -
          (processInput ⟨⟨1000, 5, 8, 0⟩, fun _ => none, ["list", "exit", "help"]⟩
            ⟨⟨[], [], 1⟩, true, 0, ⟨0, 0, 0, 0⟩, 0, []⟩
            (⟨⟨1000, 5, 8, 0⟩, fun _ => none, ["list", "exit", "help"]⟩ : TickEnv).cmds).lastCleanDay →
        Ev.cleanSkipped ∈
          (tick ⟨300, true⟩ ⟨⟨1000, 5, 8, 0⟩, fun _ => none, ["list", "exit", "help"]⟩
            ⟨⟨[], [], 1⟩, true, 0, ⟨0, 0, 0, 0⟩, 0, []⟩).events ∨
        ∃ n, Ev.cleaned n ∈
          (tick ⟨300, true⟩ ⟨⟨1000, 5, 8, 0⟩, fun _ => none, ["list", "exit", "help"]⟩
            ⟨⟨[], [], 1⟩, true, 0, ⟨0, 0, 0, 0⟩, 0, []⟩).events)
     ∧ (∀ fuel rest, runLoop ⟨300, true⟩ fuel
          (tick ⟨300, true⟩ ⟨⟨1000, 5, 8, 0⟩, fun _ => none, ["list", "exit", "help"]⟩
            ⟨⟨[], [], 1⟩, true, 0, ⟨0, 0, 0, 0⟩, 0, []⟩) rest =
          tick ⟨300, true⟩ ⟨⟨1000, 5, 8, 0⟩, fun _ => none, ["list", "exit", "help"]⟩
            ⟨⟨[], [], 1⟩, true, 0, ⟨0, 0, 0, 0⟩, 0, []⟩)) :=
  ⟨⟨by decide, by decide, rfl⟩,
   claim_C10 ⟨300, true⟩ ⟨⟨1000, 5, 8, 0⟩, fun _ => none, ["list", "exit", "help"]⟩
     ⟨⟨[], [], 1⟩, true, 0, ⟨0, 0, 0, 0⟩, 0, []⟩ ["list"] ["help"]
     (by decide) (by decide) rfl⟩

/-! ## Claim C3 -/

/-- Claim C3: the claim says the daily report runs on a tick only if the
time is in the window AND no report has already run that day, so at most
one report per calendar day.  The loop (lines 326-329) only checks
`now.hour == 8 and now.minute < 5`; `last_report` is assigned but never
read, so nothing prevents a second run on the same day.  Concretely: two
consecutive ticks on day 5 at 08:00 with nothing queued produce two report
events on day 5. -/
theorem claim_C3 :
    reportsOn ((runLoop ⟨300, true⟩ 2
        ⟨⟨[], [], 1⟩, true, 1000, ⟨0, 0, 0, 0⟩, 5, []⟩
        [⟨⟨1000, 5, 8, 0⟩, fun _ => none, []⟩, ⟨⟨1000, 5, 8, 0⟩, fun _ => none, []⟩]).events) 5
      = 2 := by
  decide

end MCSM
